import Mathlib

/-!
Verification of the archive-extraction script `src/extract.py`.

The script is:

  with zipfile.ZipFile('pixel-sanctuary.zip', 'r') as zip_ref:
      zip_ref.extractall('.')
  print("Extraction completed")

We shallowly embed its observable behaviour.  The filesystem is a map from
paths (lists of path components) to byte contents.  The zip library itself
is not part of the repository, so its parser is a parameter
`parse : List Nat → Option (List ZipEntry)` (returning `none` on a corrupt
archive), and the possibility of a filesystem write failing (permissions,
disk space) is a parameter `writeOk`.  The path handling of
`ZipFile.extractall` (CPython `zipfile._extract_member`) drops empty,
current-directory and parent-directory components of an entry name before
joining it to the destination; `sanitize` embeds exactly that step.

A run produces an event trace (handle open/close, file writes, stdout
lines), the final filesystem, and a result: `Except.ok ()` models exit
status 0, `Except.error k` models uncaught termination with failure kind
`k` (`ArchiveNotFound` for a missing file, `ArchiveCorrupt` for an
unparseable one, `FilesystemWrite` for a failed write).
-/

/-- The three failure kinds of the spec's error taxonomy. -/
inductive ErrKind where
  | ArchiveNotFound
  | ArchiveCorrupt
  | FilesystemWrite
deriving DecidableEq

/-- Observable events of one run: acquiring and releasing the archive
handle, writing one file, printing one line to stdout. -/
inductive Event where
  | openHandle
  | closeHandle
  | writeFile (p : List String) (b : List Nat)
  | printLine (s : String)
deriving DecidableEq

/-- A filesystem: each path (list of components, relative to the current
directory) optionally holds byte content. -/
def FS : Type := List String → Option (List Nat)

/-- The hardcoded archive path `pixel-sanctuary.zip` in the current
directory. -/
def archiveName : List String := ["pixel-sanctuary.zip"]

/-- One entry of a zip archive: its stored name, split at the `/`
separators (a leading `""` component encodes an absolute stored name),
and its byte content. -/
structure ZipEntry where
  name : List String
  content : List Nat
deriving DecidableEq

/-- Writing one file: the path now maps to the new bytes, every other
path is unchanged (an existing file at the path is overwritten). -/
def fsWrite (fs : FS) (p : List String) (b : List Nat) : FS :=
  fun q => if q = p then some b else fs q

/-- The member-path handling of CPython `zipfile._extract_member`, which
`extractall` calls per entry: empty, `.` and `..` components of the
stored name are removed before joining the name to the destination. -/
def sanitize (name : List String) : List String :=
  name.filter (fun c => !(c == "" || c == "." || c == ".."))

/-- Outcome of extracting the entry list: the write events performed, the
filesystem afterwards, and `some k` if a write failed with kind `k`. -/
structure ExtractResult where
  events : List Event
  fs : FS
  err : Option ErrKind

/-- `extractall`: write each entry in order to its sanitized path; a
failing write aborts the pass with a `FilesystemWrite` failure (entries
already written stay on disk — there is no rollback in the source). -/
def extractAllE (writeOk : List String → Bool) : FS → List ZipEntry → ExtractResult
  | fs, [] => ⟨[], fs, none⟩
  | fs, e :: rest =>
    if writeOk (sanitize e.name) then
      let r := extractAllE writeOk (fsWrite fs (sanitize e.name) e.content) rest
      ⟨Event.writeFile (sanitize e.name) e.content :: r.events, r.fs, r.err⟩
    else ⟨[], fs, some ErrKind.FilesystemWrite⟩

/-- The pure effect of `extractall` on the filesystem when every write
succeeds. -/
def writeAll (fs : FS) (es : List ZipEntry) : FS :=
  es.foldl (fun f e => fsWrite f (sanitize e.name) e.content) fs

/-- Outcome of one run of the script: its event trace, the final
filesystem, and success (`Except.ok ()`, exit status 0) or the failure
kind that propagated uncaught. -/
structure RunResult where
  trace : List Event
  fs : FS
  result : Except ErrKind Unit

/-- One run of `src/extract.py`.  If `pixel-sanctuary.zip` is absent the
open fails (`ArchiveNotFound`) before any handle exists.  If it cannot be
parsed, the constructor closes the file and the failure propagates
(`ArchiveCorrupt`).  Otherwise every entry is extracted; on a write
failure the `with` block closes the handle and the failure propagates.
Only after all entries are written and the handle is released does the
script print `Extraction completed` and exit successfully. -/
def run (parse : List Nat → Option (List ZipEntry)) (writeOk : List String → Bool)
    (fs0 : FS) : RunResult :=
  match fs0 archiveName with
  | none => ⟨[], fs0, Except.error ErrKind.ArchiveNotFound⟩
  | some bytes =>
    match parse bytes with
    | none => ⟨[Event.openHandle, Event.closeHandle], fs0, Except.error ErrKind.ArchiveCorrupt⟩
    | some es =>
      let r := extractAllE writeOk fs0 es
      match r.err with
      | none =>
        ⟨Event.openHandle :: r.events ++ [Event.closeHandle, Event.printLine "Extraction completed"],
         r.fs, Except.ok ()⟩
      | some k =>
        ⟨Event.openHandle :: r.events ++ [Event.closeHandle], r.fs, Except.error k⟩

/-- The lines a trace prints to standard output, in order. -/
def stdoutOf (tr : List Event) : List String :=
  tr.filterMap (fun e => match e with | Event.printLine s => some s | _ => none)

/-- The content written at path `q` by the last entry of `es` targeting
`q`, if any. -/
def writesTo (es : List ZipEntry) (q : List String) : Option (List Nat) :=
  es.foldl (fun acc e => if sanitize e.name = q then some e.content else acc) none

lemma extractAllE_ok (writeOk : List String → Bool) (es : List ZipEntry) :
    ∀ fs : FS, (∀ e ∈ es, writeOk (sanitize e.name) = true) →
    extractAllE writeOk fs es =
      ⟨es.map (fun e => Event.writeFile (sanitize e.name) e.content), writeAll fs es, none⟩ := by
  induction es with
  | nil => intro fs _; rfl
  | cons e rest ih =>
    intro fs h
    have he : writeOk (sanitize e.name) = true := h e (List.mem_cons_self e rest)
    simp only [extractAllE, he, if_true]
    rw [ih _ (fun x hx => h x (List.mem_cons_of_mem _ hx))]
    simp [writeAll]

lemma writesTo_foldl (q : List String) (es : List ZipEntry) :
    ∀ a : Option (List Nat),
    es.foldl (fun acc e => if sanitize e.name = q then some e.content else acc) a =
      match writesTo es q with
      | some d => some d
      | none => a := by
  induction es with
  | nil => intro a; simp [writesTo]
  | cons e rest ih =>
    intro a
    have hr : writesTo (e :: rest) q =
        List.foldl (fun acc x => if sanitize x.name = q then some x.content else acc)
          (if sanitize e.name = q then some e.content else none) rest := rfl
    rw [List.foldl_cons, ih, hr, ih]
    cases writesTo rest q
    · by_cases h : sanitize e.name = q <;> simp [h]
    · simp

lemma writesTo_cons (e : ZipEntry) (rest : List ZipEntry) (q : List String) :
    writesTo (e :: rest) q =
      match writesTo rest q with
      | some d => some d
      | none => if sanitize e.name = q then some e.content else none :=
  writesTo_foldl q rest (if sanitize e.name = q then some e.content else none)

lemma writesTo_eq_none (es : List ZipEntry) (q : List String)
    (h : ∀ e ∈ es, sanitize e.name ≠ q) : writesTo es q = none := by
  induction es with
  | nil => rfl
  | cons e rest ih =>
    rw [writesTo_cons, ih (fun x hx => h x (List.mem_cons_of_mem _ hx))]
    simp [h e (List.mem_cons_self e rest)]

lemma writeAll_cons (fs : FS) (e : ZipEntry) (rest : List ZipEntry) :
    writeAll fs (e :: rest) = writeAll (fsWrite fs (sanitize e.name) e.content) rest := rfl

lemma writeAll_apply (es : List ZipEntry) :
    ∀ (fs : FS) (q : List String),
    writeAll fs es q =
      match writesTo es q with
      | some c => some c
      | none => fs q := by
  induction es with
  | nil => intro fs q; rfl
  | cons e rest ih =>
    intro fs q
    rw [writeAll_cons, ih, writesTo_cons]
    cases writesTo rest q
    · by_cases h : sanitize e.name = q
      · subst h
        simp [fsWrite]
      · simp [fsWrite, h, show ¬(q = sanitize e.name) from fun hc => h hc.symm]
    · simp

lemma writeAll_idem (fs : FS) (es : List ZipEntry) :
    writeAll (writeAll fs es) es = writeAll fs es := by
  funext q
  rw [writeAll_apply, writeAll_apply]
  cases h : writesTo es q <;> simp only [h]

lemma writesTo_of_nodup (es : List ZipEntry)
    (hnd : (es.map (fun e => sanitize e.name)).Nodup) :
    ∀ e ∈ es, writesTo es (sanitize e.name) = some e.content := by
  induction es with
  | nil => intro e he; cases he
  | cons a rest ih =>
    simp only [List.map_cons, List.nodup_cons] at hnd
    intro e he
    rw [writesTo_cons]
    rcases List.mem_cons.mp he with rfl | hmem
    · have h0 : writesTo rest (sanitize e.name) = none := by
        refine writesTo_eq_none _ _ (fun x hx hc => hnd.1 ?_)
        rw [← hc]
        exact List.mem_map_of_mem _ hx
      rw [h0]
      simp
    · rw [ih hnd.2 e hmem]

lemma writeAll_lookup (fs : FS) (es : List ZipEntry)
    (hnd : (es.map (fun e => sanitize e.name)).Nodup) :
    ∀ e ∈ es, writeAll fs es (sanitize e.name) = some e.content := by
  intro e he
  rw [writeAll_apply, writesTo_of_nodup es hnd e he]

lemma writeAll_preserve (fs : FS) (es : List ZipEntry) (q : List String)
    (h : ∀ e ∈ es, sanitize e.name ≠ q) : writeAll fs es q = fs q := by
  rw [writeAll_apply, writesTo_eq_none es q h]

lemma extractAllE_events (writeOk : List String → Bool) (es : List ZipEntry) :
    ∀ (fs : FS) (ev : Event), ev ∈ (extractAllE writeOk fs es).events →
    ∃ e ∈ es, ev = Event.writeFile (sanitize e.name) e.content := by
  induction es with
  | nil => intro fs ev h; cases h
  | cons e rest ih =>
    intro fs ev h
    cases hw : writeOk (sanitize e.name)
    · simp only [extractAllE, hw, Bool.false_eq_true, if_false] at h
      cases h
    · simp only [extractAllE, hw, if_true] at h
      rcases List.mem_cons.mp h with rfl | h'
      · exact ⟨e, List.mem_cons_self e rest, rfl⟩
      · obtain ⟨x, hx, hxe⟩ := ih _ ev h'
        exact ⟨x, List.mem_cons_of_mem _ hx, hxe⟩

lemma stdoutOf_append (l1 l2 : List Event) :
    stdoutOf (l1 ++ l2) = stdoutOf l1 ++ stdoutOf l2 := by
  simp [stdoutOf]

lemma stdoutOf_extract (writeOk : List String → Bool) (es : List ZipEntry) (fs : FS) :
    stdoutOf (extractAllE writeOk fs es).events = [] := by
  refine List.filterMap_eq_nil_iff.mpr (fun ev hev => ?_)
  obtain ⟨e, _, rfl⟩ := extractAllE_events writeOk es fs ev hev
  rfl

lemma openHandle_notMem_extract (writeOk : List String → Bool) (es : List ZipEntry) (fs : FS) :
    Event.openHandle ∉ (extractAllE writeOk fs es).events := by
  intro h
  obtain ⟨e, _, he⟩ := extractAllE_events writeOk es fs _ h
  cases he

lemma closeHandle_notMem_extract (writeOk : List String → Bool) (es : List ZipEntry) (fs : FS) :
    Event.closeHandle ∉ (extractAllE writeOk fs es).events := by
  intro h
  obtain ⟨e, _, he⟩ := extractAllE_events writeOk es fs _ h
  cases he

/-- A fully permissive write oracle: every filesystem write succeeds. -/
def allOk : List String → Bool := fun _ => true

/-- The two entries of the spec's worked scenario: `a.txt` holding the
bytes of "hello" and `dir/b.txt` holding the bytes of "world". -/
def demoEntries : List ZipEntry :=
  [⟨["a.txt"], [104, 101, 108, 108, 111]⟩, ⟨["dir", "b.txt"], [119, 111, 114, 108, 100]⟩]

/-- A concrete zip parser instance: the bytes `[80, 75]` form the demo
archive, everything else is corrupt. -/
def demoParse : List Nat → Option (List ZipEntry) :=
  fun b => if b = [80, 75] then some demoEntries else none

/-- A filesystem holding only the demo archive at `pixel-sanctuary.zip`. -/
def demoFS : FS := fun p => if p = archiveName then some [80, 75] else none

/-- An empty filesystem: no archive present. -/
def emptyFS : FS := fun _ => none

/-- A filesystem whose `pixel-sanctuary.zip` holds bytes `demoParse`
rejects. -/
def corruptFS : FS := fun p => if p = archiveName then some [0] else none

lemma stdoutOf_openCons (tr : List Event) :
    stdoutOf (Event.openHandle :: tr) = stdoutOf tr := by
  simp [stdoutOf]

/-- Whether an event is a file write. -/
def isWrite : Event → Bool
  | Event.writeFile _ _ => true
  | _ => false

lemma filter_isWrite_extract (writeOk : List String → Bool) (es : List ZipEntry) (fs : FS) :
    (extractAllE writeOk fs es).events.filter isWrite = (extractAllE writeOk fs es).events := by
  refine List.filter_eq_self.mpr (fun ev hev => ?_)
  obtain ⟨e, _, rfl⟩ := extractAllE_events writeOk es fs ev hev
  rfl

lemma sanitize_no_bad (name : List String) :
    "" ∉ sanitize name ∧ "." ∉ sanitize name ∧ ".." ∉ sanitize name := by
  refine ⟨fun h => ?_, fun h => ?_, fun h => ?_⟩ <;>
  · have h2 := (List.mem_filter.mp h).2
    simp at h2

/-- C1: for a well-formed, non-empty archive at `pixel-sanctuary.zip`
(entry names clean relative paths, pairwise distinct) whose writes all
succeed, after the run every entry of the archive exists at its stored
relative path with content byte-identical to the entry's stored
content. -/
theorem C1_every_entry_extracted_byte_identical
    (parse : List Nat → Option (List ZipEntry)) (writeOk : List String → Bool) (fs0 : FS)
    (b : List Nat) (es : List ZipEntry)
    (hb : fs0 archiveName = some b)
    (hp : parse b = some es)
    (_hne : es ≠ [])
    (hwf : ∀ e ∈ es, sanitize e.name = e.name)
    (hnd : (es.map (fun e => sanitize e.name)).Nodup)
    (hwo : ∀ e ∈ es, writeOk (sanitize e.name) = true) :
    ∀ e ∈ es, (run parse writeOk fs0).fs e.name = some e.content := by
  have hx := extractAllE_ok writeOk es fs0 hwo
  have hfs : (run parse writeOk fs0).fs = writeAll fs0 es := by
    simp [run, hb, hp, hx]
  intro e he
  rw [hfs, ← hwf e he]
  exact writeAll_lookup fs0 es hnd e he

/-- C1 witness: the spec's scenario — after extracting the demo archive,
`a.txt` holds the bytes of "hello". -/
theorem C1_witness :
    (run demoParse allOk demoFS).fs ["a.txt"] = some [104, 101, 108, 108, 111] :=
  C1_every_entry_extracted_byte_identical demoParse allOk demoFS [80, 75] demoEntries
    rfl rfl (by decide) (by decide) (by decide) (by decide)
    ⟨["a.txt"], [104, 101, 108, 108, 111]⟩ (by decide)

/-- C2: when no file exists at `pixel-sanctuary.zip`, the run fails with
`ArchiveNotFound`, the filesystem is untouched and nothing at all is
emitted (the trace is empty, so in particular stdout is empty). -/
theorem C2_missing_archive_fails_before_any_output
    (parse : List Nat → Option (List ZipEntry)) (writeOk : List String → Bool) (fs0 : FS)
    (h : fs0 archiveName = none) :
    (run parse writeOk fs0).result = Except.error ErrKind.ArchiveNotFound ∧
    (run parse writeOk fs0).fs = fs0 ∧
    (run parse writeOk fs0).trace = [] := by
  simp [run, h]

/-- C2 witness: on the empty filesystem the run reports `ArchiveNotFound`
with no filesystem change and an empty trace. -/
theorem C2_witness :
    (run demoParse allOk emptyFS).result = Except.error ErrKind.ArchiveNotFound ∧
    (run demoParse allOk emptyFS).fs = emptyFS ∧
    (run demoParse allOk emptyFS).trace = [] :=
  C2_missing_archive_fails_before_any_output demoParse allOk emptyFS rfl

/-- C3: when `pixel-sanctuary.zip` is present but unparseable, the run
fails with `ArchiveCorrupt`, the filesystem is exactly as before (no
partial output) and stdout is empty. -/
theorem C3_corrupt_archive_fails_without_output
    (parse : List Nat → Option (List ZipEntry)) (writeOk : List String → Bool) (fs0 : FS)
    (b : List Nat)
    (hb : fs0 archiveName = some b)
    (hp : parse b = none) :
    (run parse writeOk fs0).result = Except.error ErrKind.ArchiveCorrupt ∧
    (run parse writeOk fs0).fs = fs0 ∧
    stdoutOf (run parse writeOk fs0).trace = [] := by
  simp [run, hb, hp, stdoutOf]

/-- C3 witness: a `pixel-sanctuary.zip` holding bytes the parser rejects
yields `ArchiveCorrupt`, an unchanged filesystem and empty stdout. -/
theorem C3_witness :
    (run demoParse allOk corruptFS).result = Except.error ErrKind.ArchiveCorrupt ∧
    (run demoParse allOk corruptFS).fs = corruptFS ∧
    stdoutOf (run demoParse allOk corruptFS).trace = [] :=
  C3_corrupt_archive_fails_without_output demoParse allOk corruptFS [0] rfl rfl

/-- C4: every run whose result is success writes exactly the single line
`Extraction completed` to standard output (success of the run models
exit status 0). -/
theorem C4_success_prints_exactly_one_line
    (parse : List Nat → Option (List ZipEntry)) (writeOk : List String → Bool) (fs0 : FS)
    (h : (run parse writeOk fs0).result = Except.ok ()) :
    stdoutOf (run parse writeOk fs0).trace = ["Extraction completed"] := by
  cases h1 : fs0 archiveName with
  | none => simp [run, h1] at h
  | some bytes =>
    cases h2 : parse bytes with
    | none => simp [run, h1, h2] at h
    | some es =>
      cases h3 : (extractAllE writeOk fs0 es).err with
      | some k => simp [run, h1, h2, h3] at h
      | none =>
        have h4 := stdoutOf_extract writeOk es fs0
        simp only [run, h1, h2, h3]
        simp only [stdoutOf] at h4 ⊢
        simp [List.filterMap_cons, List.filterMap_append, h4]

/-- C4 witness: the demo run succeeds and prints exactly
`Extraction completed`. -/
theorem C4_witness :
    stdoutOf (run demoParse allOk demoFS).trace = ["Extraction completed"] :=
  C4_success_prints_exactly_one_line demoParse allOk demoFS rfl

/-- A parser instance under which an archive can contain an entry that
overwrites `pixel-sanctuary.zip` itself with a different valid archive:
bytes `[0]` form an archive whose single entry is named
`pixel-sanctuary.zip` with content `[1]`, and bytes `[1]` form an archive
whose single entry is `x` with content `[2]`.  Real zip archives can
package any bytes under any name, including a second zip under the name
`pixel-sanctuary.zip`, so this instance is realizable with the actual
format. -/
def selfParse : List Nat → Option (List ZipEntry) :=
  fun b =>
    if b = [0] then some [⟨archiveName, [1]⟩]
    else if b = [1] then some [⟨["x"], [2]⟩]
    else none

/-- A filesystem holding the self-overwriting archive. -/
def selfFS : FS := fun p => if p = archiveName then some [0] else none

/-- C5 counterexample: with a well-formed archive whose entry overwrites
`pixel-sanctuary.zip` itself, the second run extracts the new archive, so
the destination after two runs differs (at path `x`) from the
destination after one run — the claim fails as universally stated. -/
theorem C5_counterexample :
    ¬ ((run selfParse allOk (run selfParse allOk selfFS).fs).fs ["x"] =
       (run selfParse allOk selfFS).fs ["x"]) := by
  decide

/-- C5 (amended): extraction is idempotent provided no entry of the
archive extracts onto the archive's own path `pixel-sanctuary.zip` (and
the writes succeed): running the program twice leaves the destination in
the same final state as running it once, files being overwritten with
identical bytes. -/
theorem C5_idempotent_when_archive_preserved
    (parse : List Nat → Option (List ZipEntry)) (writeOk : List String → Bool) (fs0 : FS)
    (b : List Nat) (es : List ZipEntry)
    (hb : fs0 archiveName = some b)
    (hp : parse b = some es)
    (hwo : ∀ e ∈ es, writeOk (sanitize e.name) = true)
    (hav : ∀ e ∈ es, sanitize e.name ≠ archiveName) :
    (run parse writeOk (run parse writeOk fs0).fs).fs = (run parse writeOk fs0).fs := by
  have hx := extractAllE_ok writeOk es fs0 hwo
  have hfs1 : (run parse writeOk fs0).fs = writeAll fs0 es := by
    simp [run, hb, hp, hx]
  have hb2 : writeAll fs0 es archiveName = some b := by
    rw [writeAll_preserve fs0 es archiveName hav, hb]
  have hx2 := extractAllE_ok writeOk es (writeAll fs0 es) hwo
  have hfs2 : (run parse writeOk (writeAll fs0 es)).fs = writeAll (writeAll fs0 es) es := by
    simp [run, hb2, hp, hx2]
  rw [hfs1, hfs2, writeAll_idem]

/-- C5 witness: running the demo extraction twice leaves the filesystem
exactly as one run does. -/
theorem C5_witness :
    (run demoParse allOk (run demoParse allOk demoFS).fs).fs = (run demoParse allOk demoFS).fs :=
  C5_idempotent_when_archive_preserved demoParse allOk demoFS [80, 75] demoEntries
    rfl rfl (by decide) (by decide)

/-- C6: a run that fails — with any of the three kinds — prints nothing
to standard output; in particular the confirmation message never appears
on a failed run (the failure propagates to the top level as the run's
error result). -/
theorem C6_failure_never_prints
    (parse : List Nat → Option (List ZipEntry)) (writeOk : List String → Bool) (fs0 : FS)
    (k : ErrKind)
    (h : (run parse writeOk fs0).result = Except.error k) :
    stdoutOf (run parse writeOk fs0).trace = [] := by
  cases h1 : fs0 archiveName with
  | none => simp [run, h1, stdoutOf]
  | some bytes =>
    cases h2 : parse bytes with
    | none => simp [run, h1, h2, stdoutOf]
    | some es =>
      cases h3 : (extractAllE writeOk fs0 es).err with
      | none => simp [run, h1, h2, h3] at h
      | some k' =>
        have h4 := stdoutOf_extract writeOk es fs0
        simp only [run, h1, h2, h3]
        simp only [stdoutOf] at h4 ⊢
        simp [List.filterMap_cons, List.filterMap_append, h4]

/-- C6 witness: the run on the empty filesystem fails with
`ArchiveNotFound` and prints nothing. -/
theorem C6_witness :
    stdoutOf (run demoParse allOk emptyFS).trace = [] :=
  C6_failure_never_prints demoParse allOk emptyFS ErrKind.ArchiveNotFound rfl

/-- C7: in every successful run the trace is: handle opened, then
exactly the file writes, then the handle released, then — last — the
single confirmation line; so the message is emitted only after every
entry is written and the handle is released, and nothing reaches stdout
before extraction completes. -/
theorem C7_print_only_after_writes_and_release
    (parse : List Nat → Option (List ZipEntry)) (writeOk : List String → Bool) (fs0 : FS)
    (h : (run parse writeOk fs0).result = Except.ok ()) :
    (run parse writeOk fs0).trace =
      Event.openHandle :: (run parse writeOk fs0).trace.filter isWrite ++
        [Event.closeHandle, Event.printLine "Extraction completed"] := by
  cases h1 : fs0 archiveName with
  | none => simp [run, h1] at h
  | some bytes =>
    cases h2 : parse bytes with
    | none => simp [run, h1, h2] at h
    | some es =>
      cases h3 : (extractAllE writeOk fs0 es).err with
      | some k => simp [run, h1, h2, h3] at h
      | none =>
        have h4 := filter_isWrite_extract writeOk es fs0
        simp only [run, h1, h2, h3]
        simp [List.filter_cons, List.filter_append, h4, isWrite]

/-- C7 witness: the demo run's trace is open, the two writes, close, and
only then the confirmation line. -/
theorem C7_witness :
    (run demoParse allOk demoFS).trace =
      Event.openHandle :: (run demoParse allOk demoFS).trace.filter isWrite ++
        [Event.closeHandle, Event.printLine "Extraction completed"] :=
  C7_print_only_after_writes_and_release demoParse allOk demoFS rfl

/-- C8: in every run, successful or failed, the archive handle is
released as often as it is acquired: the trace holds as many
`closeHandle` events as `openHandle` events (zero when the archive is
missing and the open itself fails, one each otherwise). -/
theorem C8_handle_always_released
    (parse : List Nat → Option (List ZipEntry)) (writeOk : List String → Bool) (fs0 : FS) :
    (run parse writeOk fs0).trace.count Event.openHandle =
    (run parse writeOk fs0).trace.count Event.closeHandle := by
  cases h1 : fs0 archiveName with
  | none => simp [run, h1]
  | some bytes =>
    cases h2 : parse bytes with
    | none => simp [run, h1, h2, List.count_cons, List.count_nil]
    | some es =>
      have ho : (extractAllE writeOk fs0 es).events.count Event.openHandle = 0 :=
        List.count_eq_zero.mpr (openHandle_notMem_extract writeOk es fs0)
      have hc : (extractAllE writeOk fs0 es).events.count Event.closeHandle = 0 :=
        List.count_eq_zero.mpr (closeHandle_notMem_extract writeOk es fs0)
      cases h3 : (extractAllE writeOk fs0 es).err with
      | none =>
        simp only [run, h1, h2, h3]
        simp [List.count_cons, List.count_append, List.count_nil, ho, hc]
      | some k =>
        simp only [run, h1, h2, h3]
        simp [List.count_cons, List.count_append, List.count_nil, ho, hc]

/-- A parser instance whose single archive holds one entry with a
malicious stored name: absolute (leading empty component from a leading
slash) and climbing with `..`. -/
def evilParse : List Nat → Option (List ZipEntry) :=
  fun b => if b = [9] then some [⟨["", "..", "etc", "passwd"], [7]⟩] else none

/-- A filesystem holding the malicious archive at `pixel-sanctuary.zip`. -/
def evilFS : FS := fun p => if p = archiveName then some [9] else none

/-- C9: every file write performed by a run targets a path with no
empty, `.` or `..` component — absolute markers and parent-directory
steps of a stored entry name are removed by the extraction routine, so
every written file stays under the current directory. -/
theorem C9_no_write_escapes_destination
    (parse : List Nat → Option (List ZipEntry)) (writeOk : List String → Bool) (fs0 : FS)
    (p : List String) (b : List Nat)
    (h : Event.writeFile p b ∈ (run parse writeOk fs0).trace) :
    "" ∉ p ∧ "." ∉ p ∧ ".." ∉ p := by
  cases h1 : fs0 archiveName with
  | none => simp [run, h1] at h
  | some bytes =>
    cases h2 : parse bytes with
    | none => simp [run, h1, h2] at h
    | some es =>
      have hmem : Event.writeFile p b ∈ (extractAllE writeOk fs0 es).events := by
        cases h3 : (extractAllE writeOk fs0 es).err with
        | none =>
          simp only [run, h1, h2, h3] at h
          simpa using h
        | some k =>
          simp only [run, h1, h2, h3] at h
          simpa using h
      obtain ⟨e, _, heq⟩ := extractAllE_events writeOk es fs0 _ hmem
      cases heq
      exact sanitize_no_bad e.name

/-- C9 witness: extracting an entry stored as `/../etc/passwd` writes
`etc/passwd` under the destination, and that path has no empty, `.` or
`..` component. -/
theorem C9_witness :
    "" ∉ (["etc", "passwd"] : List String) ∧ "." ∉ (["etc", "passwd"] : List String) ∧
    ".." ∉ (["etc", "passwd"] : List String) :=
  C9_no_write_escapes_destination evilParse allOk evilFS ["etc", "passwd"] [7] (by decide)

/-- A parser instance under which the archive bytes `[80, 75]` form a
valid archive with zero entries. -/
def zeroEntryParse : List Nat → Option (List ZipEntry) :=
  fun b => if b = [80, 75] then some [] else none

/-- C10: for a valid archive with zero entries the run succeeds, leaves
the filesystem exactly unchanged, and still prints the single
confirmation line. -/
theorem C10_empty_archive_succeeds_unchanged
    (parse : List Nat → Option (List ZipEntry)) (writeOk : List String → Bool) (fs0 : FS)
    (b : List Nat)
    (hb : fs0 archiveName = some b)
    (hp : parse b = some []) :
    (run parse writeOk fs0).result = Except.ok () ∧
    (run parse writeOk fs0).fs = fs0 ∧
    stdoutOf (run parse writeOk fs0).trace = ["Extraction completed"] := by
  simp [run, hb, hp, extractAllE, stdoutOf]

/-- C10 witness: running on a zero-entry archive succeeds, changes
nothing, and prints the confirmation line. -/
theorem C10_witness :
    (run zeroEntryParse allOk demoFS).result = Except.ok () ∧
    (run zeroEntryParse allOk demoFS).fs = demoFS ∧
    stdoutOf (run zeroEntryParse allOk demoFS).trace = ["Extraction completed"] :=
  C10_empty_archive_succeeds_unchanged zeroEntryParse allOk demoFS [80, 75] rfl rfl
